import Mathlib

/-!
Verification of the feature cache and ranking engine of the Clip-Image-Search
repository.  The Python sources are shallowly embedded below:

* Python `dict`s keyed by path strings become association lists (`PyDict`)
  with dict-style lookup / insert / pop operations;
* the folder reconciliation (`utils/file_operations.py` and the worker in
  `ui/main_window.py`) becomes pure functions on file listings, where a
  failed `os.listdir` is an `Option.none` argument;
* float arithmetic (cosine similarity, color distances) is idealized over `ℝ`;
* file I/O performed by `torch.save` is embedded as a trace of filesystem
  operations with an explicit crash semantics.
-/

namespace ClipSearch

/-! ## Python dictionaries as association lists

A Python `dict` with string keys is modelled as an association list whose
keys are unique.  The operations below implement exactly the dict operations
used by the sources: membership test, lookup, item assignment and `pop`. -/

abbrev PyDict (V : Type) : Type := List (String × V)

namespace PyDict

/-- `k in d` for a Python dict. -/
def dcontains {V : Type} (d : PyDict V) (k : String) : Bool :=
  d.any (fun kv => kv.1 == k)

/-- `d.get(k)` / `d[k]` read access: the value stored under `k`, if any. -/
def dlookup {V : Type} (d : PyDict V) (k : String) : Option V :=
  (d.find? (fun kv => kv.1 == k)).map (fun kv => kv.2)

/-- `d[k] = v`: update in place if the key exists, otherwise append. -/
def dinsert {V : Type} (d : PyDict V) (k : String) (v : V) : PyDict V :=
  if d.any (fun kv => kv.1 == k) then
    d.map (fun kv => if kv.1 == k then (k, v) else kv)
  else
    d ++ [(k, v)]

/-- `d.pop(k)` / `del d[k]`: remove the entry stored under `k`. -/
def dpop {V : Type} (d : PyDict V) (k : String) : PyDict V :=
  d.filter (fun kv => !(kv.1 == k))

/-- `d.keys()`. -/
def dkeys {V : Type} (d : PyDict V) : List String :=
  d.map (fun kv => kv.1)

end PyDict

open PyDict

/-! ## utils/file_operations.py -/

/-- ASCII lowercasing of one character, as `str.lower` does on the
extension characters involved here. -/
def lowerChar (c : Char) : Char :=
  if 65 ≤ c.toNat ∧ c.toNat ≤ 90 then Char.ofNat (c.toNat + 32) else c

/-- `fname.lower()`. -/
def strLower (s : String) : String :=
  String.mk (s.toList.map lowerChar)

/-- `s.endswith(suffix)`. -/
def strEndsWith (s suffix : String) : Bool :=
  List.isSuffixOf suffix.toList s.toList

/-- The extension filter of `get_image_files`:
`fname.lower().endswith((".jpg", ".jpeg", ".png", ".gif"))`. -/
def imageExtFO (fname : String) : Bool :=
  strEndsWith (strLower fname) ".jpg" || strEndsWith (strLower fname) ".jpeg" ||
    strEndsWith (strLower fname) ".png" || strEndsWith (strLower fname) ".gif"

/-- `os.path.join(folder, fname)` (POSIX form). -/
def pathJoin (folder fname : String) : String :=
  folder ++ "/" ++ fname

/-- `get_image_files(folder_path)` from `utils/file_operations.py`.
`folderListing` is the outcome of `os.listdir`: `none` both when
`os.path.isdir` is false and when `os.listdir` raises; in both cases the
function returns `[]` (it only prints a message, there is no error channel
in its return type). -/
def get_image_files (folderListing : Option (List String)) (folderPath : String) :
    List String :=
  match folderListing with
  | none => []
  | some allFiles => (allFiles.filter imageExtFO).map (pathJoin folderPath)

/-- `get_file_changes(current_files, cached_files)` from
`utils/file_operations.py`: `set(current) - set(cached)` and
`set(cached) - set(current)`.  The Python function wraps the two set
differences back into lists in arbitrary iteration order; the sets
themselves are returned here. -/
def get_file_changes (currentFiles cachedFiles : List String) :
    Finset String × Finset String :=
  let currentSet := currentFiles.toFinset
  let cachedSet := cachedFiles.toFinset
  (currentSet \ cachedSet, cachedSet \ currentSet)

/-! ## clip.py: the selected-colors list -/

/-- `add_selected_color` from `clip.py`: when five colors are already
selected, `pop(0)` drops the oldest before the new color is appended. -/
def add_selected_color (selectedColors : List String) (color : String) :
    List String :=
  if 5 ≤ selectedColors.length then (selectedColors.drop 1) ++ [color]
  else selectedColors ++ [color]

/-! ## do_rename: the store-rekeying step

Both `ui/main_window.py` and `clip.py` perform, per store,
`if old in store: store[new] = store.pop(old)` after the file rename
succeeded (`clip.py` does it for the embeddings store and the color store
in sequence). -/

/-- The per-store rekeying of `do_rename`. -/
def do_rename {V : Type} (store : PyDict V) (oldPath newPath : String) :
    PyDict V :=
  match dlookup store oldPath with
  | some v => dinsert (dpop store oldPath) newPath v
  | none => store

/-! ## models/clip_processor.py: batch processing -/

/-- The extension filter of `_process_images_worker` (note: no `.gif` here):
`fname.lower().endswith((".jpg", ".jpeg", ".png"))`. -/
def imageExtWorker (fname : String) : Bool :=
  strEndsWith (strLower fname) ".jpg" || strEndsWith (strLower fname) ".jpeg" ||
    strEndsWith (strLower fname) ".png"

/-- The `image_paths` list built by the worker from a folder listing. -/
def imagePathsOf (folderPath : String) (allFiles : List String) : List String :=
  (allFiles.filter imageExtWorker).map (pathJoin folderPath)

/-- `ClipModel.remove_images(image_paths)`: delete each present path from the
embeddings dict and count the deletions. -/
def remove_images {V : Type} (store : PyDict V) (paths : List String) :
    PyDict V × Nat :=
  paths.foldl
    (fun acc p => if dcontains acc.1 p then (dpop acc.1 p, acc.2 + 1) else acc)
    (store, 0)

/-- `ClipModel.process_images(image_paths, ...)`: for each path, the external
embedding call (`get_image_embedding`, which returns `None` on any per-item
failure) either stores a vector and bumps the count, or skips the item. -/
def process_images {V : Type} (store : PyDict V) (paths : List String)
    (embedFn : String → Option V) : PyDict V × Nat :=
  paths.foldl
    (fun acc p =>
      match embedFn p with
      | some v => (dinsert acc.1 p v, acc.2 + 1)
      | none => acc)
    (store, 0)

/-- `_process_images_worker` from `ui/main_window.py`.

`folderListing` is the outcome of `os.listdir(self.image_folder)`: `none`
when it raises (missing or unreadable folder), in which case control jumps
to the `except` block before any store mutation.  The result collects the
final embeddings store, whether `save_cache` was called, and whether the
error path was taken: `(store, saved, errored)`. -/
def process_images_worker {V : Type} (imageFolder : String)
    (folderListing : Option (List String)) (store : PyDict V)
    (embedFn : String → Option V) : PyDict V × Bool × Bool :=
  if imageFolder = "" then (store, false, false)
  else
    match folderListing with
    | none => (store, false, true)
    | some allFiles =>
      let imagePaths := imagePathsOf imageFolder allFiles
      let newPaths := imagePaths.filter (fun p => !(dcontains store p))
      let removedPaths := (dkeys store).filter (fun p => !(imagePaths.contains p))
      let removed := remove_images store removedPaths
      if newPaths ≠ [] then
        ((process_images removed.1 newPaths embedFn).1, true, false)
      else if removed.2 ≠ 0 then (removed.1, true, false)
      else (removed.1, false, false)

/-! ## clip.py: extract_dominant_colors

The external parts (PIL image decoding and scikit-learn's `KMeans`) are the
input of the embedding: `none` stands for any exception raised while opening
or clustering; `some (centers, labels)` is a successful fit, with `centers`
the integer cluster centroids and `labels` one cluster index per pixel.
Inside the `try` block, indexing `percentages[i]` (or `centers[i]`) out of
range raises and lands in the same `except`, which returns `[]`. -/

/-- Lowercase hex digit, as produced by Python's `x` format. -/
def hexDigitChar (n : Nat) : Char :=
  if n < 10 then Char.ofNat (48 + n) else Char.ofNat (87 + n)

/-- `f"{n:02x}"` for a byte value. -/
def hexByteStr (n : Nat) : String :=
  String.mk [hexDigitChar (n / 16 % 16), hexDigitChar (n % 16)]

/-- `f"#{r:02x}{g:02x}{b:02x}"`. -/
def hexColor (c : Nat × Nat × Nat) : String :=
  "#" ++ hexByteStr c.1 ++ hexByteStr c.2.1 ++ hexByteStr c.2.2

/-- `np.bincount(labels)`: occurrence counts for `0 .. max labels`. -/
def bincount (labels : List Nat) : List Nat :=
  match labels with
  | [] => []
  | _ => (List.range (labels.foldr max 0 + 1)).map (fun i => labels.count i)

/-- The `for i in range(num_colors)` loop body of `extract_dominant_colors`:
read `centers[i]` and `percentages[i] = counts[i] / n` and append the pair;
an out-of-range index raises (modelled by `none`). -/
def build_colors (centers : List (Nat × Nat × Nat)) (counts : List Nat)
    (n : Nat) : List Nat → Option (List (String × ℚ))
  | [] => some []
  | i :: is =>
    match centers.get? i, counts.get? i, build_colors centers counts n is with
    | some c, some cnt, some rest =>
      some ((hexColor c, (cnt : ℚ) / (n : ℚ)) :: rest)
    | _, _, _ => none

/-- `extract_dominant_colors(image_path, num_colors)`: any failure —
unreadable image, clustering error, or an index error inside the loop —
is caught and yields `[]`; otherwise the list of
`(hex color, pixel fraction)` pairs is returned. -/
def extract_dominant_colors (numColors : Nat)
    (fit : Option (List (Nat × Nat × Nat) × List Nat)) : List (String × ℚ) :=
  match fit with
  | none => []
  | some (centers, labels) =>
    match build_colors centers (bincount labels) labels.length
        (List.range numColors) with
    | some colorsWithPercentages => colorsWithPercentages
    | none => []

/-! ## clip.py: color_similarity

Float arithmetic is idealized over `ℝ`.  Query colors and palette colors are
the hex strings the code actually stores; `int(s[1:3], 16)` etc. become
`hexToRGB`. -/

/-- `int(c, 16)` for one hex digit (Python accepts both cases). -/
def hexDigitVal (c : Char) : Nat :=
  if 48 ≤ c.toNat ∧ c.toNat ≤ 57 then c.toNat - 48
  else if 97 ≤ c.toNat ∧ c.toNat ≤ 102 then c.toNat - 87
  else if 65 ≤ c.toNat ∧ c.toNat ≤ 70 then c.toNat - 55
  else 0

/-- `int(s[i:i+2], 16)`. -/
def hexPairVal (cs : List Char) (i : Nat) : Nat :=
  16 * hexDigitVal (cs.getD i '0') + hexDigitVal (cs.getD (i + 1) '0')

/-- The `(int(s[1:3],16), int(s[3:5],16), int(s[5:7],16))` decoding of a
`#rrggbb` color string. -/
def hexToRGB (s : String) : Nat × Nat × Nat :=
  (hexPairVal s.toList 1, hexPairVal s.toList 3, hexPairVal s.toList 5)

/-- `np.sqrt(np.sum((query_rgb - img_rgb) ** 2))`. -/
noncomputable def rgbDist (q c : String) : ℝ :=
  Real.sqrt ((((hexToRGB q).1 : ℝ) - ((hexToRGB c).1 : ℝ)) ^ 2 +
    (((hexToRGB q).2.1 : ℝ) - ((hexToRGB c).2.1 : ℝ)) ^ 2 +
    (((hexToRGB q).2.2 : ℝ) - ((hexToRGB c).2.2 : ℝ)) ^ 2)

/-- `similarity = 1.0 - (distance / 441.7); weighted = similarity * percentage`
for one palette entry.  The divisor is the literal `441.7` of the source. -/
noncomputable def weightedSimilarity (q : String) (p : String × ℝ) : ℝ :=
  (1 - rgbDist q p.1 / (4417 / 10)) * p.2

/-- The inner `for img_color, percentage in image_colors` loop: `best_match`
starts at `0.0` and is replaced whenever a strictly larger weighted
similarity is found. -/
noncomputable def bestMatch (q : String) (imageColors : List (String × ℝ)) : ℝ :=
  imageColors.foldl
    (fun best p =>
      if best < weightedSimilarity q p then weightedSimilarity q p else best)
    0

/-- `color_similarity(query_colors, image_colors)` from `clip.py`. -/
noncomputable def color_similarity (queryColors : List String)
    (imageColors : List (String × ℝ)) : ℝ :=
  if queryColors = [] ∨ imageColors = [] then 0
  else
    (queryColors.foldl (fun total q => total + bestMatch q imageColors) 0) /
      (queryColors.length : ℝ)

/-! ## models/clip_processor.py: semantic search over `ℝ` vectors -/

/-- Dot product of two vectors (`torch` zips to the shorter length;
stored CLIP vectors all share one dimension). -/
noncomputable def dotList (u v : List ℝ) : ℝ :=
  (List.zipWith (fun a b => a * b) u v).sum

/-- `torch.nn.functional.cosine_similarity(u, v, dim=0)`:
`u·v / max(‖u‖·‖v‖, ε)` with `ε = 1e-8`. -/
noncomputable def cosineSimilarity (u v : List ℝ) : ℝ :=
  dotList u v /
    max (Real.sqrt (dotList u u) * Real.sqrt (dotList v v)) (1 / 100000000)

/-- The descending-score order used by
`sorted(similarities.items(), key=lambda x: x[1], reverse=True)`. -/
def scoreGE (a b : String × ℝ) : Prop := b.2 ≤ a.2

noncomputable instance : DecidableRel scoreGE := fun a b =>
  inferInstanceAs (Decidable (b.2 ≤ a.2))

/-- The sorted, descending ranking of a scored list. -/
noncomputable def rankDescending (scored : List (String × ℝ)) :
    List (String × ℝ) :=
  scored.insertionSort scoreGE

namespace ClipModel

/-- `ClipModel.search(prompt, limit)` from `models/clip_processor.py`.
The external text encoder's output for `prompt` is the argument
`textEmbedding`; it is only consulted when the guard
`if not prompt or not self.image_embeddings: return []` falls through. -/
noncomputable def search (imageEmbeddings : PyDict (List ℝ))
    (textEmbedding : List ℝ) (prompt : String) (lim : Nat) :
    List (String × ℝ) :=
  if prompt = "" ∨ imageEmbeddings = [] then []
  else
    (rankDescending
      (imageEmbeddings.map (fun pe => (pe.1, cosineSimilarity textEmbedding pe.2)))).take
      lim

/-- The default of the `limit` parameter in the Python signature
`def search(self, prompt, limit=100)`. -/
def defaultLimit : Nat := 100

/-- `ClipModel.search` called without an explicit limit, as
`ui/main_window.py` does (`self.clip_model.search(prompt)`). -/
noncomputable def searchDefault (imageEmbeddings : PyDict (List ℝ))
    (textEmbedding : List ℝ) (prompt : String) : List (String × ℝ) :=
  search imageEmbeddings textEmbedding prompt defaultLimit

end ClipModel

/-- The ranking core of `search_images` in the monolithic `clip.py`:
`sorted(sims.items(), key=lambda x: x[1], reverse=True)[:24]`, guarded by
early returns on an empty prompt or an empty store. -/
noncomputable def search_images (imageEmbeddings : PyDict (List ℝ))
    (textEmbedding : List ℝ) (prompt : String) : List (String × ℝ) :=
  if prompt = "" ∨ imageEmbeddings = [] then []
  else
    (rankDescending
      (imageEmbeddings.map (fun pe => (pe.1, cosineSimilarity textEmbedding pe.2)))).take
      24

/-! ## utils/cache.py: EmbeddingsCache.save as a filesystem trace

`save` is embedded as the sequence of filesystem operations it performs,
together with a crash semantics: completing a `write` replaces the target
file's contents; a crash in the middle of a `write` leaves the target
corrupt; a `replace` (`os.replace`-style atomic rename) is atomic, so a
crash during it leaves the old state. -/

/-- Contents of one path: missing, intact serialized data, or corrupt. -/
inductive FileData : Type
  | absent : FileData
  | good : List Nat → FileData
  | corrupt : FileData
deriving DecidableEq

/-- One filesystem operation. -/
inductive FsOp : Type
  | write : String → List Nat → FsOp
  | replace : String → String → FsOp
deriving DecidableEq

/-- Effect of one completed operation. -/
def applyOp (fs : String → FileData) : FsOp → String → FileData
  | FsOp.write p c => fun q => if q = p then FileData.good c else fs q
  | FsOp.replace src dst => fun q =>
      if q = dst then fs src else if q = src then FileData.absent else fs q

/-- Effect of a completed sequence of operations. -/
def runOps (fs : String → FileData) (ops : List FsOp) : String → FileData :=
  ops.foldl applyOp fs

/-- Effect of an operation interrupted mid-way: an interrupted `write`
leaves its target corrupt; `replace` is atomic, so nothing changes. -/
def crashOp (fs : String → FileData) : FsOp → String → FileData
  | FsOp.write p _ => fun q => if q = p then FileData.corrupt else fs q
  | FsOp.replace _ _ => fs

/-- Run the first `k` operations to completion, then crash inside the next
one (if there is one). -/
def runOpsCrash (fs : String → FileData) (ops : List FsOp) (k : Nat) :
    String → FileData :=
  match ops.get? k with
  | some op => crashOp (runOps fs (ops.take k)) op
  | none => runOps fs ops

/-- `torch.save(obj, path)`: a single direct write to `path`. -/
def torchSaveOps (path : String) (serialized : List Nat) : List FsOp :=
  [FsOp.write path serialized]

namespace EmbeddingsCache

/-- `EmbeddingsCache.save` from `utils/cache.py` (and, identically,
`ClipModel.save_cache` from `models/clip_processor.py`):
`torch.save(self.embeddings, self.cache_file)` inside `try`, returning
`True` on success and `False` when the write raised.  `ioOk` is whether the
underlying I/O succeeds. -/
def save (ioOk : Bool) (cacheFile : String) (serialized : List Nat) :
    Bool × List FsOp :=
  if ioOk then (true, torchSaveOps cacheFile serialized) else (false, [])

end EmbeddingsCache

/-- The write-to-temporary-then-replace shape that the specification
ascribes to `save`. -/
def AtomicSaveShape (ops : List FsOp) (cacheFile : String) : Prop :=
  ∃ tmp content, tmp ≠ cacheFile ∧
    ops = [FsOp.write tmp content, FsOp.replace tmp cacheFile]

/-! ## Helper lemmas -/

lemma add_selected_color_foldl (cs : List String) :
    ∀ l : List String, l.length ≤ 5 →
      List.foldl add_selected_color l cs =
        (l ++ cs).drop (l.length + cs.length - 5) := by
  induction cs with
  | nil =>
    intro l hl
    simp [Nat.sub_eq_zero_of_le hl]
  | cons c cs ih =>
    intro l hl
    rcases Nat.lt_or_ge l.length 5 with hlt | hge
    · have hstep : add_selected_color l c = l ++ [c] := by
        unfold add_selected_color
        rw [if_neg (by omega)]
      have hlen : (l ++ [c]).length ≤ 5 := by
        simp
        omega
      calc List.foldl add_selected_color l (c :: cs)
          = List.foldl add_selected_color (l ++ [c]) cs := by
            rw [List.foldl_cons, hstep]
        _ = ((l ++ [c]) ++ cs).drop ((l ++ [c]).length + cs.length - 5) :=
            ih (l ++ [c]) hlen
        _ = (l ++ c :: cs).drop (l.length + (c :: cs).length - 5) := by
            simp
            congr 1
            omega
    · have h5 : l.length = 5 := le_antisymm hl hge
      have hstep : add_selected_color l c = l.drop 1 ++ [c] := by
        unfold add_selected_color
        rw [if_pos (by omega)]
      have hlen : (l.drop 1 ++ [c]).length ≤ 5 := by
        simp
        omega
      have hdrop : (l.drop 1 ++ [c]) ++ cs = (l ++ c :: cs).drop 1 := by
        cases l with
        | nil => simp at h5
        | cons a l => simp
      calc List.foldl add_selected_color l (c :: cs)
          = List.foldl add_selected_color (l.drop 1 ++ [c]) cs := by
            rw [List.foldl_cons, hstep]
        _ = ((l.drop 1 ++ [c]) ++ cs).drop ((l.drop 1 ++ [c]).length + cs.length - 5) :=
            ih _ hlen
        _ = ((l ++ c :: cs).drop 1).drop (cs.length + 1 - 1) := by
            rw [hdrop]
            congr 1
            simp
            omega
        _ = (l ++ c :: cs).drop (l.length + (c :: cs).length - 5) := by
            rw [List.drop_drop]
            congr 1
            simp
            omega

lemma dcontains_cons {V : Type} (kv : String × V) (d : PyDict V)
    (k : String) : dcontains (kv :: d) k = ((kv.1 == k) || dcontains d k) :=
  rfl

lemma dpop_cons {V : Type} (kv : String × V) (d : PyDict V) (k : String) :
    dpop (kv :: d) k = if kv.1 = k then dpop d k else kv :: dpop d k := by
  by_cases h : kv.1 = k <;> simp [dpop, List.filter_cons, h]

lemma dcontains_dpop_self {V : Type} (d : PyDict V) (k : String) :
    dcontains (dpop d k) k = false := by
  induction d with
  | nil => rfl
  | cons kv d ih =>
    rw [dpop_cons]
    by_cases h : kv.1 = k
    · rw [if_pos h]
      exact ih
    · rw [if_neg h, dcontains_cons, ih]
      simp [h]

lemma dcontains_dpop_ne {V : Type} (d : PyDict V) {j k : String} (h : j ≠ k) :
    dcontains (dpop d j) k = dcontains d k := by
  induction d with
  | nil => rfl
  | cons kv d ih =>
    rw [dpop_cons]
    by_cases hk : kv.1 = j
    · rw [if_pos hk, ih, dcontains_cons]
      have hfalse : (kv.1 == k) = false := by
        rw [hk]
        exact beq_eq_false_iff_ne.mpr h
      rw [hfalse]
      simp
    · rw [if_neg hk, dcontains_cons, dcontains_cons, ih]

lemma dlookup_eq_none_of_not_dcontains {V : Type} {d : PyDict V} {k : String}
    (h : dcontains d k = false) : dlookup d k = none := by
  induction d with
  | nil => rfl
  | cons kv d ih =>
    simp [dcontains] at h
    simp [dlookup, List.find?_cons, h.1]
    have : dcontains d k = false := by
      simp [dcontains]
      exact h.2
    simpa [dlookup] using ih this

lemma dinsert_of_not_dcontains {V : Type} {d : PyDict V} {k : String} (v : V)
    (h : dcontains d k = false) : dinsert d k v = d ++ [(k, v)] := by
  unfold dinsert
  rw [show (d.any fun kv => kv.1 == k) = false from h]
  simp

lemma dlookup_append_single_self {V : Type} (d : PyDict V) (k : String)
    (v : V) (h : dcontains d k = false) :
    dlookup (d ++ [(k, v)]) k = some v := by
  have hd : d.find? (fun kv => kv.1 == k) = none := by
    have hl := dlookup_eq_none_of_not_dcontains h
    simpa [dlookup] using hl
  simp [dlookup, List.find?_append, hd]

lemma dlookup_append_single_ne {V : Type} (d : PyDict V) {j k : String}
    (v : V) (h : j ≠ k) : dlookup (d ++ [(k, v)]) j = dlookup d j := by
  simp [dlookup, List.find?_append, Ne.symm h]

lemma dcontains_append_single {V : Type} (d : PyDict V) (j k : String)
    (v : V) : dcontains (d ++ [(k, v)]) j = (dcontains d j || k == j) := by
  simp [dcontains]

/-! ## Claim theorems -/

/-- C1: for every folder listing and every set of known cached identities,
`get_file_changes` returns `to_add = D \ K` and `to_remove = K \ D`; the two
sets are disjoint and `(K \ to_remove) ∪ to_add = D`. -/
theorem C1_diff_sets (currentFiles cachedFiles : List String) :
    (get_file_changes currentFiles cachedFiles).1 =
        currentFiles.toFinset \ cachedFiles.toFinset ∧
    (get_file_changes currentFiles cachedFiles).2 =
        cachedFiles.toFinset \ currentFiles.toFinset ∧
    Disjoint (get_file_changes currentFiles cachedFiles).1
      (get_file_changes currentFiles cachedFiles).2 ∧
    (cachedFiles.toFinset \ (get_file_changes currentFiles cachedFiles).2) ∪
        (get_file_changes currentFiles cachedFiles).1 =
      currentFiles.toFinset := by
  refine ⟨rfl, rfl, disjoint_sdiff_sdiff, ?_⟩
  ext a
  simp [get_file_changes]
  tauto

/-- C5: the selected-colors list is a fixed-capacity FIFO ring: an add at
capacity five drops the oldest color and appends the new one, and any
sequence of adds starting from the empty list leaves exactly the most
recently added (at most five) colors, in addition order. -/
theorem C5_color_ring (cs : List String) (l : List String) (c : String)
    (h5 : l.length = 5) :
    add_selected_color l c = l.drop 1 ++ [c] ∧
    (List.foldl add_selected_color [] cs).length ≤ 5 ∧
    List.foldl add_selected_color [] cs = cs.drop (cs.length - 5) := by
  have hfold := add_selected_color_foldl cs [] (by simp)
  simp at hfold
  refine ⟨?_, ?_, hfold⟩
  · unfold add_selected_color
    rw [if_pos (by omega)]
  · rw [hfold]
    simp
    omega

theorem C5_color_ring_witness :
    (["red", "orange", "yellow", "green", "blue"] : List String).length = 5 ∧
    (add_selected_color ["red", "orange", "yellow", "green", "blue"] "cyan" =
        ["orange", "yellow", "green", "blue", "cyan"] ∧
      (List.foldl add_selected_color []
          ["red", "orange", "yellow", "green", "blue", "cyan"]).length ≤ 5 ∧
      List.foldl add_selected_color []
          ["red", "orange", "yellow", "green", "blue", "cyan"] =
        ["orange", "yellow", "green", "blue", "cyan"]) := by
  refine ⟨by decide, ?_⟩
  have h := C5_color_ring ["red", "orange", "yellow", "green", "blue", "cyan"]
    ["red", "orange", "yellow", "green", "blue"] "cyan" (by decide)
  simpa using h

/-- C10: semantic search called with the empty query string returns the
empty result list regardless of the store's contents — in `ClipModel.search`
with any limit, in the default-limit call used by the UI, and in the
monolithic `search_images`. -/
theorem C10_empty_prompt (store : PyDict (List ℝ)) (textEmbedding : List ℝ)
    (lim : Nat) :
    ClipModel.search store textEmbedding "" lim = [] ∧
    ClipModel.searchDefault store textEmbedding "" = [] ∧
    search_images store textEmbedding "" = [] := by
  refine ⟨?_, ?_, ?_⟩ <;>
    simp [ClipModel.search, ClipModel.searchDefault, search_images]

/-- C6 counterexample: `EmbeddingsCache.save` does not write via a temporary
file — its trace is a single direct write to the cache file — and a crash in
the middle of that write corrupts the previously good cache file. -/
theorem C6_counterexample :
    ¬ AtomicSaveShape
        ((EmbeddingsCache.save true "clip_embeddings.pt" [1]).2)
        "clip_embeddings.pt" ∧
    runOpsCrash (fun _ => FileData.good [0])
        ((EmbeddingsCache.save true "clip_embeddings.pt" [1]).2) 0
        "clip_embeddings.pt" = FileData.corrupt := by
  constructor
  · rintro ⟨tmp, content, hne, h⟩
    simp [EmbeddingsCache.save, torchSaveOps] at h
  · rfl

/-- C6 (corrected): `save` performs a single direct in-place write of the
serialized store to the cache file (no temporary file, no replace); when the
write completes the cache file holds the new serialization, but an
interruption mid-write leaves the cache file corrupt.  It returns `true` on
success and `false` on failure. -/
theorem C6_save_direct_write (fs : String → FileData) (cacheFile : String)
    (serialized : List Nat) :
    (EmbeddingsCache.save true cacheFile serialized).1 = true ∧
    (EmbeddingsCache.save false cacheFile serialized).1 = false ∧
    (EmbeddingsCache.save true cacheFile serialized).2 =
      [FsOp.write cacheFile serialized] ∧
    runOps fs (EmbeddingsCache.save true cacheFile serialized).2 cacheFile =
      FileData.good serialized ∧
    runOpsCrash fs (EmbeddingsCache.save true cacheFile serialized).2 0
      cacheFile = FileData.corrupt := by
  refine ⟨rfl, rfl, rfl, ?_, ?_⟩
  · simp [EmbeddingsCache.save, torchSaveOps, runOps, applyOp]
  · simp [EmbeddingsCache.save, torchSaveOps, runOpsCrash, runOps, crashOp]

/-- C7 counterexample: reconciling through
`get_file_changes(get_image_files(missing_folder), cached)` does not yield
an empty `to_remove` — the silently empty listing makes every cached
identity be reported for removal. -/
theorem C7_counterexample :
    (get_file_changes (get_image_files none "/missing") ["a.jpg"]).2 ≠
      (∅ : Finset String) := by
  decide

/-- C7 (corrected): on a missing or unreadable folder the worker
`_process_images_worker` does yield no deltas, no store mutation, no save
and an error status; but `get_image_files` merely returns `[]` with no
error signal, so a diff computed from it pairs the empty `to_add` with a
`to_remove` containing every cached identity. -/
theorem C7_listing_failure {V : Type} (imageFolder : String)
    (store : PyDict V) (embedFn : String → Option V)
    (hf : imageFolder ≠ "") :
    process_images_worker imageFolder none store embedFn =
      (store, false, true) ∧
    (∀ path, get_image_files none path = []) ∧
    (∀ path cached,
      get_file_changes (get_image_files none path) cached =
        (∅, cached.toFinset)) := by
  refine ⟨?_, fun path => rfl, fun path cached => ?_⟩
  · simp [process_images_worker, hf]
  · simp [get_file_changes, get_image_files]

theorem C7_listing_failure_witness :
    ("photos" : String) ≠ "" ∧
    (process_images_worker "photos" none [("photos/a.jpg", 0)]
        (fun _ => none) = ([("photos/a.jpg", 0)], false, true) ∧
      (∀ path, get_image_files none path = []) ∧
      (∀ path cached,
        get_file_changes (get_image_files none path) cached =
          (∅, cached.toFinset))) :=
  ⟨by decide, C7_listing_failure "photos" [("photos/a.jpg", 0)]
    (fun _ => none) (by decide)⟩

/-- C4: if `old` is present in a store, `new` is absent from it and
`old ≠ new`, then after the `do_rename` rekeying the store maps `new` to
exactly the value previously stored under `old` and no longer contains
`old` — never both keys, never neither. -/
theorem C4_rename_rekeys {V : Type} (store : PyDict V)
    (oldPath newPath : String) (v : V) (hne : oldPath ≠ newPath)
    (hold : dlookup store oldPath = some v)
    (hnew : dcontains store newPath = false) :
    dlookup (do_rename store oldPath newPath) newPath = some v ∧
    dlookup (do_rename store oldPath newPath) oldPath = none ∧
    dcontains (do_rename store oldPath newPath) newPath = true ∧
    dcontains (do_rename store oldPath newPath) oldPath = false := by
  have hres : do_rename store oldPath newPath =
      dpop store oldPath ++ [(newPath, v)] := by
    unfold do_rename
    rw [hold]
    exact dinsert_of_not_dcontains v
      (by rw [dcontains_dpop_ne store hne]; exact hnew)
  rw [hres]
  have hpopnew : dcontains (dpop store oldPath) newPath = false := by
    rw [dcontains_dpop_ne store hne]
    exact hnew
  have hpopold : dcontains (dpop store oldPath) oldPath = false :=
    dcontains_dpop_self store oldPath
  refine ⟨dlookup_append_single_self _ _ _ hpopnew, ?_, ?_, ?_⟩
  · rw [dlookup_append_single_ne _ _ hne]
    exact dlookup_eq_none_of_not_dcontains hpopold
  · rw [dcontains_append_single, hpopnew]
    simp
  · rw [dcontains_append_single, hpopold]
    simp [Ne.symm hne]

theorem C4_rename_rekeys_witness :
    ("old.jpg" : String) ≠ "new.jpg" ∧
    dlookup [("old.jpg", 7)] "old.jpg" = some 7 ∧
    dcontains [("old.jpg", 7)] "new.jpg" = false ∧
    (dlookup (do_rename [("old.jpg", 7)] "old.jpg" "new.jpg") "new.jpg" =
        some 7 ∧
      dlookup (do_rename [("old.jpg", 7)] "old.jpg" "new.jpg") "old.jpg" =
        none ∧
      dcontains (do_rename [("old.jpg", 7)] "old.jpg" "new.jpg") "new.jpg" =
        true ∧
      dcontains (do_rename [("old.jpg", 7)] "old.jpg" "new.jpg") "old.jpg" =
        false) :=
  ⟨by decide, by decide, by decide,
    C4_rename_rekeys [("old.jpg", 7)] "old.jpg" "new.jpg" 7 (by decide)
      (by decide) (by decide)⟩

/-- C8: processing an empty batch returns 0 and mutates no store, and when
the reconciliation deltas are both empty (`to_add = to_remove = ∅`, i.e.
the folder's image set equals the store's key set) the worker neither
mutates the store nor saves; hence running the worker twice on the
unchanged folder equals running it once. -/
theorem C8_unchanged_noop {V : Type} (imageFolder : String)
    (allFiles : List String) (store : PyDict V)
    (embedFn : String → Option V)
    (hadd : (imagePathsOf imageFolder allFiles).filter
      (fun p => !(dcontains store p)) = [])
    (hrem : (dkeys store).filter
      (fun p => !((imagePathsOf imageFolder allFiles).contains p)) = []) :
    process_images store [] embedFn = (store, 0) ∧
    process_images_worker imageFolder (some allFiles) store embedFn =
      (store, false, false) ∧
    process_images_worker imageFolder (some allFiles)
        (process_images_worker imageFolder (some allFiles) store embedFn).1
        embedFn =
      process_images_worker imageFolder (some allFiles) store embedFn := by
  have honce : process_images_worker imageFolder (some allFiles) store
      embedFn = (store, false, false) := by
    unfold process_images_worker
    by_cases hf : imageFolder = ""
    · rw [if_pos hf]
    · rw [if_neg hf]
      simp only [hadd, hrem]
      rfl
  exact ⟨rfl, honce, by rw [honce]; exact honce⟩

theorem C8_unchanged_noop_witness :
    ((imagePathsOf "photos" ["a.jpg", "notes.txt"]).filter
        (fun p => !(dcontains [("photos/a.jpg", 3)] p)) = [] ∧
      (dkeys [("photos/a.jpg", 3)]).filter
        (fun p =>
          !((imagePathsOf "photos" ["a.jpg", "notes.txt"]).contains p)) =
        []) ∧
    (process_images [("photos/a.jpg", 3)] [] (fun _ => none) =
        ([("photos/a.jpg", 3)], 0) ∧
      process_images_worker "photos" (some ["a.jpg", "notes.txt"])
          [("photos/a.jpg", 3)] (fun _ => none) =
        ([("photos/a.jpg", 3)], false, false) ∧
      process_images_worker "photos" (some ["a.jpg", "notes.txt"])
          (process_images_worker "photos" (some ["a.jpg", "notes.txt"])
            [("photos/a.jpg", 3)] (fun _ => none)).1 (fun _ => none) =
        process_images_worker "photos" (some ["a.jpg", "notes.txt"])
          [("photos/a.jpg", 3)] (fun _ => none)) :=
  ⟨⟨by decide, by decide⟩,
    C8_unchanged_noop "photos" ["a.jpg", "notes.txt"] [("photos/a.jpg", 3)]
      (fun _ => none) (by decide) (by decide)⟩

lemma list_sum_map_add (xs : List Nat) (f g : Nat → Nat) :
    (xs.map (fun i => f i + g i)).sum = (xs.map f).sum + (xs.map g).sum := by
  induction xs with
  | nil => rfl
  | cons a xs ih =>
    simp [ih]
    omega

lemma sum_ite_eq_range (B a : Nat) :
    ((List.range B).map (fun i => if a == i then 1 else 0)).sum =
      if a < B then 1 else 0 := by
  induction B with
  | zero => simp
  | succ B ih =>
    rw [List.range_succ, List.map_append, List.sum_append, ih]
    by_cases h1 : a < B
    · have h2 : ¬ a = B := by omega
      have h3 : a < B + 1 := by omega
      simp [h1, h2, h3]
    · by_cases h2 : a = B
      · have h3 : a < B + 1 := by omega
        simp [h1, h2, h3]
      · have h3 : ¬ a < B + 1 := by omega
        simp [h1, h2, h3]

lemma sum_count_range (l : List Nat) (B : Nat) (h : ∀ x ∈ l, x < B) :
    ((List.range B).map (fun i => l.count i)).sum = l.length := by
  induction l with
  | nil => simp
  | cons a l ih =>
    have ha : a < B := h a (List.mem_cons_self a l)
    have hl : ∀ x ∈ l, x < B := fun x hx => h x (List.mem_cons_of_mem a hx)
    have hmap : (List.range B).map (fun i => List.count i (a :: l)) =
        (List.range B).map
          (fun i => List.count i l + if a == i then 1 else 0) := by
      apply List.map_congr_left
      intro i _
      rw [List.count_cons]
    rw [hmap, list_sum_map_add, ih hl, sum_ite_eq_range, if_pos ha]
    simp

lemma list_sum_map_div (xs : List Nat) (f : Nat → ℚ) (n : ℚ) :
    (xs.map (fun i => f i / n)).sum = (xs.map f).sum / n := by
  induction xs with
  | nil => simp
  | cons a xs ih => simp [ih, add_div]

lemma foldr_max_le (l : List Nat) (m : Nat) (h : ∀ x ∈ l, x ≤ m) :
    l.foldr max 0 ≤ m := by
  induction l with
  | nil => exact Nat.zero_le m
  | cons a l ih =>
    simp only [List.foldr_cons]
    exact max_le (h a (List.mem_cons_self a l))
      (ih fun x hx => h x (List.mem_cons_of_mem a hx))

lemma le_foldr_max (l : List Nat) (a : Nat) (h : a ∈ l) :
    a ≤ l.foldr max 0 := by
  induction l with
  | nil => cases h
  | cons b l ih =>
    simp only [List.foldr_cons]
    rcases List.mem_cons.mp h with rfl | hmem
    · exact le_max_left _ _
    · exact le_trans (ih hmem) (le_max_right _ _)

lemma build_colors_some (centers : List (Nat × Nat × Nat))
    (counts : List Nat) (n : Nat) :
    ∀ is : List Nat,
      (∀ i ∈ is, i < centers.length ∧ i < counts.length) →
      ∃ res, build_colors centers counts n is = some res ∧
        res.length = is.length ∧
        res.map (fun pc => pc.2) =
          is.map (fun i => (((counts.get? i).getD 0 : Nat) : ℚ) / (n : ℚ)) := by
  intro is
  induction is with
  | nil => exact fun _ => ⟨[], rfl, rfl, rfl⟩
  | cons i is ih =>
    intro h
    obtain ⟨hci, hcnti⟩ := h i (List.mem_cons_self i is)
    obtain ⟨c, hc⟩ : ∃ c, centers.get? i = some c :=
      ⟨_, List.get?_eq_get hci⟩
    obtain ⟨cnt, hcnt⟩ : ∃ cnt, counts.get? i = some cnt :=
      ⟨_, List.get?_eq_get hcnti⟩
    obtain ⟨res, hres, hlen, hmapeq⟩ :=
      ih (fun j hj => h j (List.mem_cons_of_mem i hj))
    refine ⟨(hexColor c, (cnt : ℚ) / (n : ℚ)) :: res, ?_, ?_, ?_⟩
    · simp only [build_colors, hc, hcnt, hres]
    · simp [hlen]
    · simp only [List.map_cons, hmapeq]
      rw [hcnt]
      rfl

/-- C9: `extract_dominant_colors` never raises: any open/cluster failure is
caught and yields `[]`; a successful fit (cluster centers of the requested
count, every pixel labelled within range, top cluster index attained)
yields exactly `num_colors` (hex color, weight) pairs whose weights sum
to 1; and an image cached with an empty palette scores `0.0` in every
color search. -/
theorem C9_extract_palette (numColors : Nat)
    (centers : List (Nat × Nat × Nat)) (labels : List Nat)
    (h0 : 0 < numColors) (hc : centers.length = numColors)
    (hlab : ∀ l ∈ labels, l < numColors)
    (hmax : numColors - 1 ∈ labels) :
    extract_dominant_colors numColors none = [] ∧
    (extract_dominant_colors numColors (some (centers, labels))).length =
      numColors ∧
    ((extract_dominant_colors numColors (some (centers, labels))).map
        (fun pc => pc.2)).sum = 1 ∧
    (∀ queryColors, color_similarity queryColors [] = 0) := by
  have hne : labels ≠ [] := by
    intro h
    rw [h] at hmax
    cases hmax
  have hfold : labels.foldr max 0 = numColors - 1 :=
    le_antisymm
      (foldr_max_le labels (numColors - 1)
        (fun x hx => by have := hlab x hx; omega))
      (le_foldr_max labels (numColors - 1) hmax)
  have hbin : bincount labels =
      (List.range numColors).map (fun i => labels.count i) := by
    have hb : bincount labels =
        (List.range (labels.foldr max 0 + 1)).map
          (fun i => labels.count i) := by
      cases labels with
      | nil => cases hne rfl
      | cons a ls => rfl
    rw [hb, hfold, Nat.sub_add_cancel h0]
  have hbinlen : (bincount labels).length = numColors := by
    rw [hbin]
    simp
  obtain ⟨res, hres, hlen, hmapeq⟩ :=
    build_colors_some centers (bincount labels) labels.length
      (List.range numColors)
      (fun i hi => by
        rw [hc, hbinlen]
        exact ⟨List.mem_range.mp hi, List.mem_range.mp hi⟩)
  have hext : extract_dominant_colors numColors (some (centers, labels)) =
      res := by
    simp only [extract_dominant_colors, hres]
  have hget : ∀ i ∈ List.range numColors,
      (((bincount labels).get? i).getD 0 : Nat) = labels.count i := by
    intro i hi
    rw [hbin, List.get?_eq_getElem?, List.getElem?_map,
      List.getElem?_range (List.mem_range.mp hi)]
    rfl
  refine ⟨rfl, ?_, ?_, ?_⟩
  · rw [hext, hlen]
    simp
  · rw [hext, hmapeq]
    have hmap2 : (List.range numColors).map
        (fun i => ((((bincount labels).get? i).getD 0 : Nat) : ℚ) /
          (labels.length : ℚ)) =
        (List.range numColors).map
          (fun i => ((labels.count i : Nat) : ℚ) / (labels.length : ℚ)) := by
      apply List.map_congr_left
      intro i hi
      rw [hget i hi]
    rw [hmap2, list_sum_map_div]
    have hcast : ((List.range numColors).map
        (fun i => ((labels.count i : Nat) : ℚ))).sum =
        (((List.range numColors).map (fun i => labels.count i)).sum : ℚ) := by
      rw [Nat.cast_list_sum, List.map_map]
      rfl
    rw [hcast, sum_count_range labels numColors hlab]
    have hn : (labels.length : ℚ) ≠ 0 := by
      have hpos : 0 < labels.length := List.length_pos.mpr hne
      exact_mod_cast Nat.pos_iff_ne_zero.mp hpos
    exact div_self hn
  · intro queryColors
    simp [color_similarity]

theorem C9_extract_palette_witness :
    (0 < 2 ∧
      ([((0 : Nat), (0 : Nat), (0 : Nat)), (255, 255, 255)] :
        List (Nat × Nat × Nat)).length = 2 ∧
      (∀ l ∈ [0, 1, 1, 1], l < 2) ∧ 2 - 1 ∈ [0, 1, 1, 1]) ∧
    (extract_dominant_colors 2 none = [] ∧
      (extract_dominant_colors 2
        (some ([((0 : Nat), (0 : Nat), (0 : Nat)), (255, 255, 255)],
          [0, 1, 1, 1]))).length = 2 ∧
      ((extract_dominant_colors 2
        (some ([((0 : Nat), (0 : Nat), (0 : Nat)), (255, 255, 255)],
          [0, 1, 1, 1]))).map (fun pc => pc.2)).sum = 1 ∧
      (∀ queryColors, color_similarity queryColors [] = 0)) :=
  ⟨⟨by decide, by decide, by decide, by decide⟩,
    C9_extract_palette 2 [((0 : Nat), (0 : Nat), (0 : Nat)), (255, 255, 255)]
      [0, 1, 1, 1] (by decide) (by decide) (by decide) (by decide)⟩

/-! ## Lemmas for the color score -/

lemma hexDigitVal_le (c : Char) : hexDigitVal c ≤ 15 := by
  unfold hexDigitVal
  split_ifs <;> omega

lemma hexPairVal_le (cs : List Char) (i : Nat) : hexPairVal cs i ≤ 255 := by
  unfold hexPairVal
  have h1 := hexDigitVal_le (cs.getD i '0')
  have h2 := hexDigitVal_le (cs.getD (i + 1) '0')
  omega

lemma rgbDist_lt (q c : String) : rgbDist q c < 4417 / 10 := by
  have hchan : ∀ a b : Nat, a ≤ 255 → b ≤ 255 →
      ((a : ℝ) - (b : ℝ)) ^ 2 ≤ 255 ^ 2 := by
    intro a b ha hb
    have ha' : (a : ℝ) ≤ 255 := by exact_mod_cast ha
    have hb' : (b : ℝ) ≤ 255 := by exact_mod_cast hb
    have ha0 : (0 : ℝ) ≤ (a : ℝ) := Nat.cast_nonneg a
    have hb0 : (0 : ℝ) ≤ (b : ℝ) := Nat.cast_nonneg b
    apply sq_le_sq' <;> linarith
  have hsum : (((hexToRGB q).1 : ℝ) - ((hexToRGB c).1 : ℝ)) ^ 2 +
      (((hexToRGB q).2.1 : ℝ) - ((hexToRGB c).2.1 : ℝ)) ^ 2 +
      (((hexToRGB q).2.2 : ℝ) - ((hexToRGB c).2.2 : ℝ)) ^ 2 ≤ 195075 := by
    have e1 := hchan (hexToRGB q).1 (hexToRGB c).1
      (hexPairVal_le _ _) (hexPairVal_le _ _)
    have e2 := hchan (hexToRGB q).2.1 (hexToRGB c).2.1
      (hexPairVal_le _ _) (hexPairVal_le _ _)
    have e3 := hchan (hexToRGB q).2.2 (hexToRGB c).2.2
      (hexPairVal_le _ _) (hexPairVal_le _ _)
    have h255 : ((255 : ℝ)) ^ 2 = 65025 := by norm_num
    rw [h255] at e1 e2 e3
    linarith
  have hlt : Real.sqrt 195075 < 4417 / 10 := by
    rw [Real.sqrt_lt' (by norm_num : (0 : ℝ) < 4417 / 10)]
    norm_num
  calc rgbDist q c ≤ Real.sqrt 195075 := Real.sqrt_le_sqrt hsum
    _ < 4417 / 10 := hlt

lemma weightedSimilarity_nonneg (q : String) (p : String × ℝ)
    (hp : 0 ≤ p.2) : 0 ≤ weightedSimilarity q p := by
  unfold weightedSimilarity
  apply mul_nonneg _ hp
  have hd := rgbDist_lt q p.1
  have hpos : (0 : ℝ) < 4417 / 10 := by norm_num
  have := (div_lt_one hpos).mpr hd
  linarith

lemma foldl_if_lt_eq_max (xs : List ℝ) :
    ∀ a : ℝ, xs.foldl (fun b w => if b < w then w else b) a =
      xs.foldl max a := by
  induction xs with
  | nil => intro a; rfl
  | cons x xs ih =>
    intro a
    simp only [List.foldl_cons]
    rw [ih]
    congr 1
    rcases lt_or_ge a x with h | h
    · rw [if_pos h, max_eq_right (le_of_lt h)]
    · rw [if_neg (not_lt.mpr h), max_eq_left h]

lemma foldl_max_mem (xs : List ℝ) :
    ∀ a : ℝ, xs.foldl max a = a ∨ xs.foldl max a ∈ xs := by
  induction xs with
  | nil => intro a; exact Or.inl rfl
  | cons x xs ih =>
    intro a
    simp only [List.foldl_cons]
    rcases ih (max a x) with h | h
    · rcases max_choice a x with hm | hm
      · exact Or.inl (h.trans hm)
      · exact Or.inr (by rw [h, hm]; exact List.mem_cons_self x xs)
    · exact Or.inr (List.mem_cons_of_mem x h)

lemma le_foldl_max (xs : List ℝ) :
    ∀ a : ℝ, a ≤ xs.foldl max a ∧ ∀ y ∈ xs, y ≤ xs.foldl max a := by
  induction xs with
  | nil => intro a; exact ⟨le_refl a, by simp⟩
  | cons x xs ih =>
    intro a
    obtain ⟨h1, h2⟩ := ih (max a x)
    simp only [List.foldl_cons]
    refine ⟨le_trans (le_max_left a x) h1, ?_⟩
    intro y hy
    rcases List.mem_cons.mp hy with rfl | hmem
    · exact le_trans (le_max_right a y) h1
    · exact h2 y hmem

lemma foldl_max_isGreatest (xs : List ℝ) (hne : xs ≠ [])
    (hpos : ∀ x ∈ xs, 0 ≤ x) :
    IsGreatest {y | y ∈ xs} (xs.foldl max 0) := by
  cases xs with
  | nil => cases hne rfl
  | cons x xs =>
    have hfold : List.foldl max 0 (x :: xs) = List.foldl max x xs := by
      simp only [List.foldl_cons]
      rw [max_eq_right (hpos x (List.mem_cons_self x xs))]
    constructor
    · rw [hfold]
      rcases foldl_max_mem xs x with h | h
      · rw [h]
        exact List.mem_cons_self x xs
      · exact List.mem_cons_of_mem x h
    · intro y hy
      rw [hfold]
      obtain ⟨h1, h2⟩ := le_foldl_max xs x
      rcases List.mem_cons.mp hy with rfl | hmem
      · exact h1
      · exact h2 y hmem

lemma foldl_add_eq_sum_map (Q : List String) (f : String → ℝ) :
    ∀ a : ℝ, Q.foldl (fun t q => t + f q) a = a + (Q.map f).sum := by
  induction Q with
  | nil => intro a; simp
  | cons q Q ih =>
    intro a
    simp only [List.foldl_cons, List.map_cons, List.sum_cons]
    rw [ih]
    ring

lemma bestMatch_eq_foldl_max (q : String) (P : List (String × ℝ)) :
    bestMatch q P = (P.map (weightedSimilarity q)).foldl max 0 := by
  unfold bestMatch
  rw [← foldl_if_lt_eq_max, List.foldl_map]

/-- C2 counterexample: at the single query color black and the single
palette entry (white, weight 1), `color_similarity` differs from the
specified value `w · (1 − d/√(255²·3))` — the code divides by the literal
`441.7`, which is strictly larger than `√(255²·3)`, so the code's score is
strictly positive where the specified formula gives exactly 0. -/
theorem C2_counterexample :
    color_similarity ["#000000"] [("#ffffff", (1 : ℝ))] ≠
      1 * (1 - rgbDist "#000000" "#ffffff" / Real.sqrt (255 ^ 2 * 3)) := by
  have h1 : hexToRGB "#000000" = (0, 0, 0) := by decide
  have h2 : hexToRGB "#ffffff" = (255, 255, 255) := by decide
  have hd : rgbDist "#000000" "#ffffff" = Real.sqrt 195075 := by
    unfold rgbDist
    rw [h1, h2]
    norm_num
  have hsqrt_lt : Real.sqrt 195075 < 4417 / 10 := by
    rw [Real.sqrt_lt' (by norm_num : (0 : ℝ) < 4417 / 10)]
    norm_num
  have hw : 0 < 1 - Real.sqrt 195075 / (4417 / 10) := by
    have hdiv := (div_lt_one (by norm_num : (0 : ℝ) < 4417 / 10)).mpr hsqrt_lt
    linarith
  have hrhs : 1 * (1 - rgbDist "#000000" "#ffffff" /
      Real.sqrt (255 ^ 2 * 3)) = 0 := by
    rw [hd, show ((255 : ℝ) ^ 2 * 3) = 195075 by norm_num]
    rw [div_self (ne_of_gt (Real.sqrt_pos.mpr (by norm_num)))]
    ring
  have hlhs : color_similarity ["#000000"] [("#ffffff", (1 : ℝ))] =
      (1 - Real.sqrt 195075 / (4417 / 10)) * 1 := by
    unfold color_similarity
    rw [if_neg (by simp)]
    simp only [List.foldl_cons, List.foldl_nil]
    unfold bestMatch
    simp only [List.foldl_cons, List.foldl_nil]
    unfold weightedSimilarity
    rw [hd]
    rw [if_pos (by rw [mul_one]; exact hw)]
    simp
  rw [hlhs, hrhs, mul_one]
  exact ne_of_gt hw

/-- C2 (corrected): with nonnegative palette weights, the color score is
the mean over the query colors of the greatest weighted similarity
`(1 − d/441.7) · w` over the palette — the divisor in the code is the
literal `441.7`, not `√(255²·3) ≈ 441.673`; empty query or empty palette
yields `0.0` without an error. -/
theorem C2_color_score (Q : List String) (P : List (String × ℝ))
    (hw : ∀ p ∈ P, 0 ≤ p.2) (hQ : Q ≠ []) (hP : P ≠ []) :
    color_similarity Q [] = 0 ∧
    color_similarity [] P = 0 ∧
    (∀ q, IsGreatest {y | ∃ p ∈ P, y = weightedSimilarity q p}
      (bestMatch q P)) ∧
    color_similarity Q P =
      (Q.map (fun q => bestMatch q P)).sum / (Q.length : ℝ) := by
  refine ⟨by simp [color_similarity], by simp [color_similarity], ?_, ?_⟩
  · intro q
    have hset : {y | ∃ p ∈ P, y = weightedSimilarity q p} =
        {y | y ∈ P.map (weightedSimilarity q)} := by
      ext y
      simp only [Set.mem_setOf_eq, List.mem_map]
      constructor
      · rintro ⟨p, hp, rfl⟩
        exact ⟨p, hp, rfl⟩
      · rintro ⟨p, hp, rfl⟩
        exact ⟨p, hp, rfl⟩
    rw [hset, bestMatch_eq_foldl_max]
    apply foldl_max_isGreatest
    · simp [hP]
    · intro x hx
      obtain ⟨p, hp, rfl⟩ := List.mem_map.mp hx
      exact weightedSimilarity_nonneg q p (hw p hp)
  · unfold color_similarity
    rw [if_neg (by simp [hQ, hP])]
    rw [foldl_add_eq_sum_map, zero_add]

theorem C2_color_score_witness :
    ((∀ p ∈ [("#00ff00", (1 : ℝ))], 0 ≤ p.2) ∧
      (["#ff0000"] : List String) ≠ [] ∧
      ([("#00ff00", (1 : ℝ))] : List (String × ℝ)) ≠ []) ∧
    (color_similarity ["#ff0000"] [] = 0 ∧
      color_similarity [] [("#00ff00", (1 : ℝ))] = 0 ∧
      (∀ q, IsGreatest
        {y | ∃ p ∈ [("#00ff00", (1 : ℝ))], y = weightedSimilarity q p}
        (bestMatch q [("#00ff00", (1 : ℝ))])) ∧
      color_similarity ["#ff0000"] [("#00ff00", (1 : ℝ))] =
        ((["#ff0000"] : List String).map
          (fun q => bestMatch q [("#00ff00", (1 : ℝ))])).sum /
          ((["#ff0000"] : List String).length : ℝ)) :=
  ⟨⟨fun p hp => by
      simp only [List.mem_singleton] at hp
      subst hp
      exact zero_le_one,
    by simp, by simp⟩,
    C2_color_score ["#ff0000"] [("#00ff00", (1 : ℝ))]
      (fun p hp => by
        simp only [List.mem_singleton] at hp
        subst hp
        exact zero_le_one)
      (by simp) (by simp)⟩

/-! ## Lemmas for the semantic ranking -/

lemma rankDescending_length (scored : List (String × ℝ)) :
    (rankDescending scored).length = scored.length :=
  List.length_insertionSort scoreGE scored

lemma search_length (store : PyDict (List ℝ)) (textEmbedding : List ℝ)
    (prompt : String) (lim : Nat) (hp : prompt ≠ "") (hs : store ≠ []) :
    (ClipModel.search store textEmbedding prompt lim).length =
      min lim store.length := by
  unfold ClipModel.search
  rw [if_neg (by simp [hp, hs])]
  rw [List.length_take, rankDescending_length, List.length_map]

/-- C3 counterexample: on a 25-image store, `ClipModel.search` invoked the
way the UI invokes it (no explicit limit, so Python's default applies)
returns 25 results — the default limit is 100, not 24. -/
theorem C3_counterexample :
    ¬ ((ClipModel.searchDefault
        ((List.range 25).map (fun i => (toString i, ([1] : List ℝ))))
        [1] "x").length ≤ 24) := by
  have hlen : (ClipModel.searchDefault
      ((List.range 25).map (fun i => (toString i, ([1] : List ℝ))))
      [1] "x").length = min 100 25 := by
    unfold ClipModel.searchDefault ClipModel.defaultLimit
    rw [search_length _ _ _ _ (by decide) (by simp)]
    simp
  rw [hlen]
  norm_num

/-- C3 (corrected): for every store and non-empty text query, semantic
search returns the scored pairs `(identity, cosine similarity)` sorted
descending by score and truncated to the result limit; the `limit`
parameter of `ClipModel.search` defaults to 100 (the monolithic
`search_images` hardcodes 24), and an empty store yields the empty result
list, not an error. -/
theorem C3_search_ranked (store : PyDict (List ℝ)) (textEmbedding : List ℝ)
    (prompt : String) (lim : Nat) (hp : prompt ≠ "") (hs : store ≠ []) :
    ClipModel.search [] textEmbedding prompt lim = [] ∧
    ClipModel.searchDefault store textEmbedding prompt =
      ClipModel.search store textEmbedding prompt 100 ∧
    search_images store textEmbedding prompt =
      ClipModel.search store textEmbedding prompt 24 ∧
    (∃ ranked : List (String × ℝ),
      ranked.Perm (store.map
        (fun pe => (pe.1, cosineSimilarity textEmbedding pe.2))) ∧
      List.Sorted scoreGE ranked ∧
      ClipModel.search store textEmbedding prompt lim = ranked.take lim) ∧
    (ClipModel.search store textEmbedding prompt lim).length =
      min lim store.length := by
  refine ⟨by simp [ClipModel.search], rfl, rfl, ?_,
    search_length store textEmbedding prompt lim hp hs⟩
  refine ⟨rankDescending (store.map
    (fun pe => (pe.1, cosineSimilarity textEmbedding pe.2))), ?_, ?_, ?_⟩
  · exact List.perm_insertionSort scoreGE _
  · haveI : IsTotal (String × ℝ) scoreGE := ⟨fun a b => le_total b.2 a.2⟩
    haveI : IsTrans (String × ℝ) scoreGE :=
      ⟨fun a b c hab hbc => le_trans hbc hab⟩
    exact List.sorted_insertionSort scoreGE _
  · unfold ClipModel.search
    rw [if_neg (by simp [hp, hs])]

theorem C3_search_ranked_witness :
    (("cat" : String) ≠ "" ∧
      ([("a.jpg", [(1 : ℝ)]), ("b.jpg", [(0 : ℝ)])] :
        PyDict (List ℝ)) ≠ []) ∧
    (ClipModel.search [] [(1 : ℝ)] "cat" 24 = [] ∧
      ClipModel.searchDefault [("a.jpg", [(1 : ℝ)]), ("b.jpg", [(0 : ℝ)])]
          [(1 : ℝ)] "cat" =
        ClipModel.search [("a.jpg", [(1 : ℝ)]), ("b.jpg", [(0 : ℝ)])]
          [(1 : ℝ)] "cat" 100 ∧
      search_images [("a.jpg", [(1 : ℝ)]), ("b.jpg", [(0 : ℝ)])]
          [(1 : ℝ)] "cat" =
        ClipModel.search [("a.jpg", [(1 : ℝ)]), ("b.jpg", [(0 : ℝ)])]
          [(1 : ℝ)] "cat" 24 ∧
      (∃ ranked : List (String × ℝ),
        ranked.Perm
          (([("a.jpg", [(1 : ℝ)]), ("b.jpg", [(0 : ℝ)])] :
            PyDict (List ℝ)).map
            (fun pe => (pe.1, cosineSimilarity [(1 : ℝ)] pe.2))) ∧
        List.Sorted scoreGE ranked ∧
        ClipModel.search [("a.jpg", [(1 : ℝ)]), ("b.jpg", [(0 : ℝ)])]
          [(1 : ℝ)] "cat" 24 = ranked.take 24) ∧
      (ClipModel.search [("a.jpg", [(1 : ℝ)]), ("b.jpg", [(0 : ℝ)])]
          [(1 : ℝ)] "cat" 24).length =
        min 24 ([("a.jpg", [(1 : ℝ)]), ("b.jpg", [(0 : ℝ)])] :
          PyDict (List ℝ)).length) :=
  ⟨⟨by decide, by simp⟩,
    C3_search_ranked [("a.jpg", [(1 : ℝ)]), ("b.jpg", [(0 : ℝ)])]
      [(1 : ℝ)] "cat" 24 (by decide) (by simp)⟩

end ClipSearch
